import Mathlib

/-!
Shallow embedding of the workflow executor core of `go-workflows`
(`src/internal/workflow/executor.go`).

The executor file is the only source file available; the small helper
packages it uses (`workflowstate`, `command`, `history`, `core`, `task`)
are modelled from the specification where noted.  The cooperative
scheduler that runs user workflow code (`e.workflow.Execute/Continue`)
is outside the embedding: event dispatch that drives it is abstracted as
an `execEvent` function parameter, and a handler recording that it
resumed the workflow sets a `resumed` flag.

Go `int64` values (sequence ids, schedule event ids) are modelled as
unbounded `Int`: the counters only ever grow by the length of delivered
event lists, far below the 2^63 overflow boundary, and no claim concerns
integer width.
-/

namespace Workflow

/-- Event types of `history.EventType` (closed set, spec section 3). -/
inductive EventType
  | WorkflowExecutionStarted
  | WorkflowExecutionFinished
  | WorkflowExecutionCanceled
  | WorkflowTaskStarted
  | ActivityScheduled
  | ActivityCompleted
  | ActivityFailed
  | TimerScheduled
  | TimerFired
  | TimerCanceled
  | SignalReceived
  | SideEffectResult
  | SubWorkflowScheduled
  | SubWorkflowCancellationRequested
  | SubWorkflowCompleted
  | SubWorkflowFailed
deriving DecidableEq, Repr, Fintype

/-- Modelled from the spec: `core.WorkflowInstance` is
`(instanceId, executionId)` plus optional `(parentInstanceId,
parentScheduleEventId)` for sub-workflows (empty parent id means no
parent). -/
structure WorkflowInstance where
  instanceID : String
  executionID : String
  parentInstanceID : String
  parentEventID : Int
deriving DecidableEq, Repr

/-- Modelled from the spec: `core.NewWorkflowInstance(instanceID,
executionID)` builds an instance with no parent. -/
def NewWorkflowInstance (instanceID executionID : String) : WorkflowInstance :=
  { instanceID := instanceID
    executionID := executionID
    parentInstanceID := ""
    parentEventID := 0 }

/-- Modelled from the spec: an instance is a sub-workflow exactly when it
carries a parent instance id (`core.WorkflowInstance.SubWorkflow`). -/
def WorkflowInstance.SubWorkflow (i : WorkflowInstance) : Bool :=
  i.parentInstanceID ≠ ""

/-- Event attributes (`history.*Attributes`), one constructor per
attribute record used by the executor.  Payloads are modelled as
`String`, inputs as `List String`, timestamps as `Nat`. -/
inductive Attr
  | executionStarted (name : String) (inputs : List String)
  | executionCompleted (result : String) (error : String)
  | executionCanceled
  | workflowTaskStarted
  | activityScheduled (name : String) (inputs : List String)
  | activityCompleted (result : String)
  | activityFailed (reason : String)
  | timerScheduled (at_ : Nat)
  | timerFired (at_ : Nat)
  | timerCanceled
  | signalReceived (name : String) (arg : String)
  | sideEffectResult (result : String)
  | subWorkflowScheduled (subWorkflowInstance : WorkflowInstance) (name : String) (inputs : List String)
  | subWorkflowCompleted (result : String)
  | subWorkflowFailed (error : String)
deriving DecidableEq, Repr

/-- `history.Event`.  The random uuid `ID` field is omitted (never read
by the executor). -/
structure Event where
  sequenceID : Int
  type : EventType
  timestamp : Nat
  scheduleEventID : Int
  visibleAt : Option Nat
  attributes : Attr
deriving DecidableEq, Repr

/-- Modelled from the spec: `history.NewPendingEvent` via
`executor.createNewEvent` (lines 629-636): a fresh event has sequence id
0, the clock's current time as timestamp, and schedule-event-id /
visible-at taken from the options (0 / absent when not supplied). -/
def createNewEvent (now : Nat) (ty : EventType) (attributes : Attr)
    (scheduleEventID : Int) (visibleAt : Option Nat) : Event :=
  { sequenceID := 0
    type := ty
    timestamp := now
    scheduleEventID := scheduleEventID
    visibleAt := visibleAt
    attributes := attributes }

/-- Modelled from the spec: `history.NewWorkflowCancellationEvent`
produces a `WorkflowExecutionCanceled` event (used by the
`CancelSubWorkflow` translation, executor.go line 522; Go stamps it with
`time.Now()`, modelled with the same clock value). -/
def NewWorkflowCancellationEvent (now : Nat) : Event :=
  createNewEvent now .WorkflowExecutionCanceled .executionCanceled 0 none

/-- `history.WorkflowEvent`: a history event addressed to another
workflow instance. -/
structure WorkflowEvent where
  workflowInstance : WorkflowInstance
  historyEvent : Event
deriving DecidableEq, Repr

/-- Command types of `command.CommandType` (closed set, spec section 3). -/
inductive CommandType
  | ScheduleActivity
  | ScheduleSubWorkflow
  | CancelSubWorkflow
  | SideEffect
  | ScheduleTimer
  | CancelTimer
  | CompleteWorkflow
deriving DecidableEq, Repr, Fintype

/-- `command.CommandState`. -/
inductive CommandState
  | Pending
  | Committed
deriving DecidableEq, Repr

/-- Command attributes (`command.*CommandAttr`), one constructor per
command type.  In Go `Command.Type` and `Command.Attr` are separate
fields kept coherent by the command constructors; here the type is
derived from the attribute record, making an incoherent pair
unrepresentable. -/
inductive CommandAttr
  | scheduleActivity (name : String) (inputs : List String)
  | scheduleSubWorkflow (inst : WorkflowInstance) (name : String) (inputs : List String)
  | cancelSubWorkflow (subWorkflowInstance : WorkflowInstance)
  | sideEffect (result : String)
  | scheduleTimer (at_ : Nat)
  | cancelTimer (timerScheduleEventID : Int)
  | completeWorkflow (result : String) (error : String)
deriving DecidableEq, Repr

/-- The `Command.Type` tag determined by the attribute record. -/
def CommandAttr.commandType : CommandAttr → CommandType
  | .scheduleActivity _ _ => .ScheduleActivity
  | .scheduleSubWorkflow _ _ _ => .ScheduleSubWorkflow
  | .cancelSubWorkflow _ => .CancelSubWorkflow
  | .sideEffect _ => .SideEffect
  | .scheduleTimer _ => .ScheduleTimer
  | .cancelTimer _ => .CancelTimer
  | .completeWorkflow _ _ => .CompleteWorkflow

/-- `command.Command`: id (its future schedule event id), state, and
attributes (the type tag is `attr.commandType`). -/
structure Command where
  id : Int
  state : CommandState
  attr : CommandAttr
deriving DecidableEq, Repr

/-- Modelled from the spec: `command.NewCompleteWorkflowCommand(eventId,
result, err)` (a nil Go error is the empty string). -/
def NewCompleteWorkflowCommand (id : Int) (result : String) (error : String) : Command :=
  { id := id, state := .Pending, attr := .completeWorkflow result error }

/-- One entry of the future-resolution trace: a future for
`scheduleEventID` was resolved with the given payload and error. -/
structure Resolution where
  scheduleEventID : Int
  result : Option String
  error : Option String
deriving DecidableEq, Repr

/-- The state the event dispatcher touches, modelled from the spec
(`workflowstate.WfState` is not under `src/`): the insertion-ordered
command log, the registry of pending one-shot futures (their schedule
event ids), a trace of resolutions performed, the schedule-event-id
counter, the replay flag, the workflow goroutine's completion status
(`e.workflow.Completed/Result/Error`), and the injected clock value.
The executor's `lastSequenceID` counter is threaded separately: the
dispatcher never touches it (executor.go only updates it in
`replayHistory` and `nextSequenceID`). -/
structure WfState where
  commands : List Command
  futures : List Int
  resolutions : List Resolution
  nextScheduleEventID : Int
  replaying : Bool
  wfCompleted : Bool
  wfResult : String
  wfError : String
  clockNow : Nat
deriving DecidableEq, Repr

/-- Modelled from the spec: `workflowstate.ClearCommands` clears the
leftover commands of the prior turn (ExecuteTask step 1). -/
def ClearCommands (s : WfState) : WfState :=
  { s with commands := [] }

/-- Modelled from the spec: `workflowstate.SetReplaying`. -/
def SetReplaying (s : WfState) (b : Bool) : WfState :=
  { s with replaying := b }

/-- Modelled from the spec: `workflowstate.GetNextScheduleEventID`
returns the strictly-increasing schedule-event-id counter. -/
def GetNextScheduleEventID (s : WfState) : Int × WfState :=
  (s.nextScheduleEventID, { s with nextScheduleEventID := s.nextScheduleEventID + 1 })

/-- Modelled from the spec: `workflowstate.FutureByScheduleEventID` -
whether a pending future is registered for the id. -/
def FutureByScheduleEventID (s : WfState) (id : Int) : Bool :=
  s.futures.contains id

/-- Modelled from the spec: resolving a future (`f(result, err)`): the
future registry is a map of one-shot resolvers, so resolving removes the
pending entry and records the resolution. -/
def resolveFuture (s : WfState) (id : Int) (result : Option String) (error : Option String) :
    WfState :=
  { s with
      futures := s.futures.erase id
      resolutions := s.resolutions ++ [⟨id, result, error⟩] }

/-- Modelled from the spec: `workflowstate.RemoveCommandByEventID` - the
command log is an insertion-ordered mapping keyed by id; remove and
return the entry with the given id, if any. -/
def RemoveCommandByEventID (s : WfState) (id : Int) : Option Command × WfState :=
  match s.commands.find? (fun c => c.id == id) with
  | none => (none, s)
  | some c => (some c, { s with commands := s.commands.eraseP (fun c => c.id == id) })

/-- `task.Workflow`: the unit of work delivered by the backend. -/
structure WorkflowTask where
  id : String
  workflowInstance : WorkflowInstance
  lastSequenceID : Int
  newEvents : List Event
deriving DecidableEq, Repr

/-- `workflow.ExecutionResult` (executor.go lines 21-26). -/
structure ExecutionResult where
  completed : Bool
  executed : List Event
  activityEvents : List Event
  workflowEvents : List WorkflowEvent
deriving DecidableEq, Repr

/-- Result of one event-handler call: the dispatcher state after the
handler's own mutations, the error returned (none = nil), and whether
the handler handed control to the workflow (`e.workflow.Continue`). -/
structure HandlerResult where
  state : WfState
  error : Option String
  resumed : Bool
deriving DecidableEq, Repr

/-- `executor.handleActivityScheduled` (executor.go lines 263-282):
remove the matching pending command; fail when it is absent, of a
different type, or names a different activity; no future is resolved and
the workflow is not resumed. -/
def handleActivityScheduled (s : WfState) (event : Event) (aName : String) : HandlerResult :=
  match RemoveCommandByEventID s event.scheduleEventID with
  | (none, s') =>
    ⟨s', some "previous workflow execution scheduled an activity which could not be found", false⟩
  | (some c, s') =>
    match c.attr with
    | .scheduleActivity caName _caInputs =>
      if aName ≠ caName then
        ⟨s', some "previous workflow execution scheduled different type of activity", false⟩
      else
        ⟨s', none, false⟩
    | _ => ⟨s', some "previous workflow execution scheduled an activity, this time another type", false⟩

/-- `executor.handleTimerFired` (executor.go lines 320-341): absent
future means the timer was already canceled - explicit no-op; otherwise
remove the command (failing when absent or not a `ScheduleTimer`),
resolve the future with no value (`f(nil, nil)`) and resume. -/
def handleTimerFired (s : WfState) (event : Event) (_aAt : Nat) : HandlerResult :=
  if FutureByScheduleEventID s event.scheduleEventID then
    match RemoveCommandByEventID s event.scheduleEventID with
    | (none, s') =>
      ⟨s', some "previous workflow execution scheduled a timer", false⟩
    | (some c, s') =>
      match c.attr with
      | .scheduleTimer _ =>
        ⟨resolveFuture s' event.scheduleEventID none none, none, true⟩
      | _ => ⟨s', some "previous workflow execution scheduled a timer, this time another type", false⟩
  else
    ⟨s, none, false⟩

/-- `executor.handleTimerCanceled` (executor.go lines 343-357): absent
future is an explicit no-op; otherwise remove the command (without
checking the result), resolve the future with no value and resume. -/
def handleTimerCanceled (s : WfState) (event : Event) : HandlerResult :=
  if FutureByScheduleEventID s event.scheduleEventID then
    ⟨resolveFuture (RemoveCommandByEventID s event.scheduleEventID).2 event.scheduleEventID none none,
      none, true⟩
  else
    ⟨s, none, false⟩

/-- `executor.handleSideEffectResult` (executor.go lines 434-443): fail
when no pending future is registered; otherwise resolve it with the
recorded result (`f(a.Result, nil)`) and resume.  The command log is not
consulted. -/
def handleSideEffectResult (s : WfState) (event : Event) (aResult : String) : HandlerResult :=
  if FutureByScheduleEventID s event.scheduleEventID then
    ⟨resolveFuture s event.scheduleEventID (some aResult) none, none, true⟩
  else
    ⟨s, some "no pending future found for side effect result event", false⟩

/-- `executor.workflowCompleted` (executor.go lines 445-450): allocate a
schedule event id and append a `CompleteWorkflow` command. -/
def workflowCompleted (s : WfState) (result : String) (error : String) : WfState :=
  match GetNextScheduleEventID s with
  | (eventId, s') =>
    { s' with commands := s'.commands ++ [NewCompleteWorkflowCommand eventId result error] }

/-- Per-command output of the command-to-event translation. -/
structure ProcessResult where
  completed : Bool
  newEvents : List Event
  activityEvents : List Event
  workflowEvents : List WorkflowEvent
deriving DecidableEq, Repr

/-- Translation of a single command, the body of the loop of
`executor.processCommands` (executor.go lines 461-619). -/
def processCommand (inst : WorkflowInstance) (now : Nat) (c : Command) : ProcessResult :=
  match c.attr with
  | .scheduleActivity name inputs =>
    let scheduleActivityEvent :=
      createNewEvent now .ActivityScheduled (.activityScheduled name inputs) c.id none
    ⟨false, [scheduleActivityEvent], [scheduleActivityEvent], []⟩
  | .scheduleSubWorkflow inst name inputs =>
    ⟨false,
      [createNewEvent now .SubWorkflowScheduled (.subWorkflowScheduled inst name inputs) c.id none],
      [],
      [⟨inst, createNewEvent now .WorkflowExecutionStarted (.executionStarted name inputs) c.id none⟩]⟩
  | .cancelSubWorkflow subInst =>
    -- the Go code reuses the SubWorkflowScheduled attributes shape and
    -- passes no ScheduleEventID option here (lines 512-517)
    ⟨false,
      [createNewEvent now .SubWorkflowCancellationRequested (.subWorkflowScheduled subInst "" []) 0 none],
      [],
      [⟨subInst, NewWorkflowCancellationEvent now⟩]⟩
  | .sideEffect result =>
    ⟨false, [createNewEvent now .SideEffectResult (.sideEffectResult result) c.id none], [], []⟩
  | .scheduleTimer at_ =>
    ⟨false,
      [createNewEvent now .TimerScheduled (.timerScheduled at_) c.id none],
      [],
      [⟨inst, createNewEvent now .TimerFired (.timerFired at_) c.id (some at_)⟩]⟩
  | .cancelTimer timerScheduleEventID =>
    -- keyed to the original timer's schedule event id, not the cancel
    -- command's own id (lines 559-569); nothing is appended locally
    ⟨false, [], [],
      [⟨inst, createNewEvent now .TimerCanceled .timerCanceled timerScheduleEventID none⟩]⟩
  | .completeWorkflow result error =>
    ⟨true,
      [createNewEvent now .WorkflowExecutionFinished (.executionCompleted result error) c.id none],
      [],
      if inst.SubWorkflow then
        [⟨NewWorkflowInstance inst.parentInstanceID "",
          if error ≠ "" then
            createNewEvent now .SubWorkflowFailed (.subWorkflowFailed error) inst.parentEventID none
          else
            createNewEvent now .SubWorkflowCompleted (.subWorkflowCompleted result) inst.parentEventID none⟩]
      else []⟩

/-- The loop of `executor.processCommands` over the command log, in
insertion order, concatenating the per-command outputs (`completed` is
latched by any `CompleteWorkflow`). -/
def processCommandList (inst : WorkflowInstance) (now : Nat) : List Command → ProcessResult
  | [] => ⟨false, [], [], []⟩
  | c :: rest =>
    let r := processCommand inst now c
    let rs := processCommandList inst now rest
    ⟨r.completed || rs.completed,
      r.newEvents ++ rs.newEvents,
      r.activityEvents ++ rs.activityEvents,
      r.workflowEvents ++ rs.workflowEvents⟩

/-- `executor.processCommands` (executor.go lines 452-622): translate
every command of the log, marking each as `Committed`.  The Go `default`
error branch is unreachable here because the command set is closed. -/
def processCommands (s : WfState) (t : WorkflowTask) : ProcessResult × WfState :=
  (processCommandList t.workflowInstance s.clockNow s.commands,
    { s with commands := s.commands.map (fun c => { c with state := CommandState.Committed }) })

/-- The sequence-id assignment loop of `ExecuteTask` (executor.go lines
120-123) using `nextSequenceID` (lines 624-627): returns the updated
events and the final `lastSequenceID`. -/
def setSequenceIDs : Int → List Event → List Event × Int
  | lastSequenceID, [] => ([], lastSequenceID)
  | lastSequenceID, ev :: rest =>
    let sid := lastSequenceID + 1
    let r := setSequenceIDs sid rest
    ({ ev with sequenceID := sid } :: r.1, r.2)

/-- Tail of `ExecuteTask` (executor.go lines 112-138): flush the command
log, append the command events to the executed events, assign sequence
ids, and build the `ExecutionResult`. -/
def finishTask (lastSequenceID : Int) (s : WfState) (executedEvents : List Event)
    (t : WorkflowTask) : ExecutionResult × WfState × Int :=
  let pr := processCommands s t
  let assigned := setSequenceIDs lastSequenceID (executedEvents ++ pr.1.newEvents)
  (⟨pr.1.completed, assigned.1, pr.1.activityEvents, pr.1.workflowEvents⟩, pr.2, assigned.2)

/-- The loop of `executor.replayHistory` (executor.go lines 143-149):
apply each event; on failure return immediately with the error,
otherwise advance `lastSequenceID` to the event's sequence id. -/
def replayLoop (execEvent : WfState → Event → Except String WfState) :
    WfState → Int → List Event → WfState × Int × Option String
  | s, lastSequenceID, [] => (s, lastSequenceID, none)
  | s, lastSequenceID, ev :: rest =>
    match execEvent s ev with
    | .error err => (s, lastSequenceID, some err)
    | .ok s' => replayLoop execEvent s' ev.sequenceID rest

/-- `executor.replayHistory` (executor.go lines 141-152). -/
def replayHistory (execEvent : WfState → Event → Except String WfState)
    (s : WfState) (lastSequenceID : Int) (events : List Event) : WfState × Int × Option String :=
  replayLoop execEvent (SetReplaying s true) lastSequenceID events

/-- The loop of `executor.executeNewEvents` (executor.go lines 157-161):
on a failure at index `i` the successfully dispatched prefix
`newEvents[:i]` is returned together with the error. -/
def dispatchLoop (execEvent : WfState → Event → Except String WfState) :
    WfState → List Event → List Event × WfState × Option String
  | s, [] => ([], s, none)
  | s, ev :: rest =>
    match execEvent s ev with
    | .error err => ([], s, some err)
    | .ok s' =>
      let r := dispatchLoop execEvent s' rest
      (ev :: r.1, r.2.1, r.2.2)

/-- `executor.executeNewEvents` (executor.go lines 154-168): leave
replay mode, dispatch the events in order, and - only when all of them
succeeded - complete the workflow if the workflow function finished. -/
def executeNewEvents (execEvent : WfState → Event → Except String WfState)
    (s : WfState) (newEvents : List Event) : List Event × WfState × Option String :=
  match dispatchLoop execEvent (SetReplaying s false) newEvents with
  | (pre, s', some err) => (pre, s', some err)
  | (_, s', none) =>
    if s'.wfCompleted then
      (newEvents, workflowCompleted s' s'.wfResult s'.wfError, none)
    else
      (newEvents, s', none)

/-- Steps 4-7 of `ExecuteTask` (executor.go lines 95-138): prepend a
fresh `WorkflowTaskStarted` event, dispatch the new events unless
replay failed (recording a dispatch failure as workflow completion with
that error), then flush the commands and assign sequence ids. -/
def runNewEventsAndFinish (execEvent : WfState → Event → Except String WfState)
    (lastSequenceID : Int) (s : WfState) (skipNewEvents : Bool) (t : WorkflowTask) :
    ExecutionResult × WfState × Int :=
  if skipNewEvents then
    finishTask lastSequenceID s
      [createNewEvent s.clockNow .WorkflowTaskStarted .workflowTaskStarted 0 none] t
  else
    match executeNewEvents execEvent s
        (createNewEvent s.clockNow .WorkflowTaskStarted .workflowTaskStarted 0 none
          :: t.newEvents) with
    | (pre, s', some err) => finishTask lastSequenceID (workflowCompleted s' "" err) pre t
    | (pre, s', none) => finishTask lastSequenceID s' pre t

/-- The stale-executor branch of `ExecuteTask` (executor.go lines
72-90): replay the fetched history; on a replay error fail the workflow
with it and skip the new events but still go through the commands (lines
80-86); in either case the post-replay sequence id must equal the
task's, otherwise the whole call fails (lines 88-90). -/
def replayAndRun (execEvent : WfState → Event → Except String WfState)
    (lastSequenceID : Int) (s0 : WfState) (h : List Event) (t : WorkflowTask) :
    Except String (ExecutionResult × WfState × Int) :=
  match replayHistory execEvent s0 lastSequenceID h with
  | (s1, seq1, some err) =>
    if t.lastSequenceID ≠ seq1 then
      .error "even after fetching history and replaying history executor state does not match task"
    else
      .ok (runNewEventsAndFinish execEvent seq1 (workflowCompleted s1 "" err) true t)
  | (s1, seq1, none) =>
    if t.lastSequenceID ≠ seq1 then
      .error "even after fetching history and replaying history executor state does not match task"
    else
      .ok (runNewEventsAndFinish execEvent seq1 s1 false t)

/-- `executor.ExecuteTask` (executor.go lines 65-139).  `execEvent` is
the event dispatcher (`executor.executeEvent` driving the cooperative
scheduler); `provider` is the outcome of
`historyProvider.GetWorkflowInstanceHistory`, consulted only when the
task has newer history.  Returns the `ExecutionResult` together with the
final dispatcher state and `lastSequenceID`. -/
def ExecuteTask (execEvent : WfState → Event → Except String WfState)
    (provider : Except String (List Event)) (lastSequenceID : Int) (s : WfState)
    (t : WorkflowTask) : Except String (ExecutionResult × WfState × Int) :=
  if lastSequenceID < t.lastSequenceID then
    match provider with
    | .error err => .error ("getting workflow history: " ++ err)
    | .ok h => replayAndRun execEvent lastSequenceID (ClearCommands s) h t
  else if t.lastSequenceID < lastSequenceID then
    .error "task has older history than current state, cannot execute"
  else
    .ok (runNewEventsAndFinish execEvent lastSequenceID (ClearCommands s) false t)

/-- The event type whose `scheduleEventId` correlates with a command of
the given type ("emitted event ... of the matching type", spec section
8). -/
def matchingEventType : CommandType → EventType
  | .ScheduleActivity => .ActivityScheduled
  | .ScheduleSubWorkflow => .SubWorkflowScheduled
  | .CancelSubWorkflow => .SubWorkflowCancellationRequested
  | .SideEffect => .SideEffectResult
  | .ScheduleTimer => .TimerScheduled
  | .CancelTimer => .TimerCanceled
  | .CompleteWorkflow => .WorkflowExecutionFinished

/-- The events a turn emits: the local new events together with the
cross-instance workflow events. -/
def ProcessResult.emitted (r : ProcessResult) : List Event :=
  r.newEvents ++ r.workflowEvents.map (fun we => we.historyEvent)

/-- Everything of an event except its (mutable) sequence id. -/
def eventCore (ev : Event) : EventType × Nat × Int × Option Nat × Attr :=
  (ev.type, ev.timestamp, ev.scheduleEventID, ev.visibleAt, ev.attributes)

/-! Concrete fixtures used by witnesses and counterexamples. -/

/-- A dispatcher state with empty command log and future registry. -/
def emptyWfState : WfState :=
  ⟨[], [], [], 0, false, false, "", "", 0⟩

/-- A top-level (non-sub-workflow) instance. -/
def fixtureInstance : WorkflowInstance := ⟨"i1", "e1", "", 0⟩

/-- A sub-workflow instance whose parent stored schedule event id 3. -/
def fixtureSubInstance : WorkflowInstance := ⟨"child", "e2", "parent", 3⟩

/-- A task for `fixtureInstance` with no new events and sequence id 0. -/
def fixtureTask : WorkflowTask := ⟨"t1", fixtureInstance, 0, []⟩

/-- A state holding one pending `ScheduleTimer` command with id 1 and a
pending future for id 1. -/
def fixtureTimerState : WfState :=
  ⟨[⟨1, .Pending, .scheduleTimer 5⟩], [1], [], 2, false, false, "", "", 0⟩

/-- A `TimerFired` event for schedule event id 1. -/
def fixtureTimerEvent : Event := ⟨0, .TimerFired, 0, 1, none, .timerFired 5⟩

/-- A state holding one pending `ScheduleActivity` command with id 1. -/
def fixtureActivityState : WfState :=
  ⟨[⟨1, .Pending, .scheduleActivity "add" ["1", "2"]⟩], [], [], 2, false, false, "", "", 0⟩

/-- An `ActivityScheduled` event for schedule event id 1. -/
def fixtureActivityEvent : Event :=
  ⟨0, .ActivityScheduled, 0, 1, none, .activityScheduled "add" ["1", "2"]⟩

/-- A state holding a pending future for id 7 and no commands. -/
def fixtureSideEffectState : WfState :=
  ⟨[], [7], [], 0, false, false, "", "", 0⟩

/-- A `SideEffectResult` event for schedule event id 7. -/
def fixtureSideEffectEvent : Event :=
  ⟨0, .SideEffectResult, 0, 7, none, .sideEffectResult "r"⟩

/-- A state holding one pending `CancelTimer` command: the command's own
id is 2, the canceled timer's schedule event id is 1. -/
def fixtureCancelTimerState : WfState :=
  ⟨[⟨2, .Pending, .cancelTimer 1⟩], [], [], 3, false, false, "", "", 0⟩

/-- A state holding one pending `CompleteWorkflow` command with id 4,
result "R" and no error. -/
def fixtureCompleteState : WfState :=
  ⟨[⟨4, .Pending, .completeWorkflow "R" ""⟩], [], [], 5, false, false, "", "", 0⟩

/-- A task for the sub-workflow instance with no new events. -/
def fixtureSubTask : WorkflowTask := ⟨"t2", fixtureSubInstance, 0, []⟩

/-- An event dispatcher that applies every event successfully without
touching the state. -/
def okExecEvent : WfState → Event → Except String WfState :=
  fun s _ => .ok s

/-- An event dispatcher that fails on every event. -/
def failExecEvent : WfState → Event → Except String WfState :=
  fun _ _ => .error "dispatch failure"

/-- An event dispatcher that fails exactly on `TimerFired` events. -/
def failOnTimerFiredExecEvent : WfState → Event → Except String WfState :=
  fun s ev => if ev.type == .TimerFired then .error "replay failure" else .ok s

/-- An event dispatcher modelling user code that schedules one activity
while handling each event. -/
def addActivityExecEvent : WfState → Event → Except String WfState :=
  fun s _ => .ok { s with commands := s.commands ++ [⟨1, .Pending, .scheduleActivity "add" ["1"]⟩] }

/-- A replayable history event with sequence id 1. -/
def fixtureHistoryEvent : Event := ⟨1, .WorkflowTaskStarted, 0, 0, none, .workflowTaskStarted⟩

/-- A history event with sequence id 2 on which
`failOnTimerFiredExecEvent` fails. -/
def fixtureFailEvent : Event := ⟨2, .TimerFired, 0, 9, none, .timerFired 0⟩

/-- A task for `fixtureInstance` whose backend history ends at sequence
id 1. -/
def fixtureReplayTask : WorkflowTask := ⟨"t3", fixtureInstance, 1, []⟩

/-! Basic frame lemmas about the modelled workflow state. -/

theorem RemoveCommandByEventID_futures (s : WfState) (id : Int) :
    (RemoveCommandByEventID s id).2.futures = s.futures := by
  unfold RemoveCommandByEventID
  cases s.commands.find? (fun c => c.id == id) <;> rfl

theorem RemoveCommandByEventID_resolutions (s : WfState) (id : Int) :
    (RemoveCommandByEventID s id).2.resolutions = s.resolutions := by
  unfold RemoveCommandByEventID
  cases s.commands.find? (fun c => c.id == id) <;> rfl

/-- C5: handling `TimerFired` or `TimerCanceled` with no registered
future for the schedule event id is an explicit no-op (nil error, state
untouched, no resume); with the future present, `handleTimerCanceled`
removes the matching command, resolves the future with no value and
resumes, and `handleTimerFired` does the same but fails when the removed
command is absent or is not a `ScheduleTimer` command. -/
theorem timer_fired_canceled_race_semantics (s : WfState) (event : Event) (aAt : Nat) :
    (FutureByScheduleEventID s event.scheduleEventID = false →
        handleTimerFired s event aAt = ⟨s, none, false⟩
      ∧ handleTimerCanceled s event = ⟨s, none, false⟩)
    ∧ (FutureByScheduleEventID s event.scheduleEventID = true →
        handleTimerCanceled s event =
          ⟨resolveFuture (RemoveCommandByEventID s event.scheduleEventID).2
              event.scheduleEventID none none, none, true⟩
      ∧ ((RemoveCommandByEventID s event.scheduleEventID).1 = none →
          handleTimerFired s event aAt =
            ⟨(RemoveCommandByEventID s event.scheduleEventID).2,
              some "previous workflow execution scheduled a timer", false⟩)
      ∧ (∀ c, (RemoveCommandByEventID s event.scheduleEventID).1 = some c →
          (c.attr.commandType ≠ CommandType.ScheduleTimer →
            (handleTimerFired s event aAt).error.isSome = true
            ∧ (handleTimerFired s event aAt).resumed = false)
        ∧ (c.attr.commandType = CommandType.ScheduleTimer →
            handleTimerFired s event aAt =
              ⟨resolveFuture (RemoveCommandByEventID s event.scheduleEventID).2
                  event.scheduleEventID none none, none, true⟩))) := by
  constructor
  · intro hf
    constructor
    · simp [handleTimerFired, hf]
    · simp [handleTimerCanceled, hf]
  · intro hf
    rcases hrm : RemoveCommandByEventID s event.scheduleEventID with ⟨c?, s'⟩
    refine ⟨by simp [handleTimerCanceled, hf, hrm], ?_, ?_⟩
    · intro hc
      simp only [hrm] at hc
      subst hc
      simp [handleTimerFired, hf, hrm]
    · intro c hc
      simp only [hrm] at hc
      subst hc
      cases hattr : c.attr <;>
        simp [handleTimerFired, hf, hrm, hattr, CommandAttr.commandType]

/-- C5 witness: with a pending future and a pending `ScheduleTimer`
command for id 1, `handleTimerFired` removes the command, resolves the
future with no value, and resumes. -/
theorem timer_fired_canceled_race_semantics_witness :
    handleTimerFired fixtureTimerState fixtureTimerEvent 5 =
      ⟨resolveFuture (RemoveCommandByEventID fixtureTimerState fixtureTimerEvent.scheduleEventID).2
          fixtureTimerEvent.scheduleEventID none none, none, true⟩ :=
  (((timer_fired_canceled_race_semantics fixtureTimerState fixtureTimerEvent 5).2 rfl).2.2
    ⟨1, .Pending, .scheduleTimer 5⟩ rfl).2 rfl

/-- C6: `handleActivityScheduled` removes the pending command with the
event's schedule event id; it errors exactly when that command is
absent, not a `ScheduleActivity`, or names a different activity; on a
match it returns nil; no future is resolved and the workflow is not
resumed in any case. -/
theorem handleActivityScheduled_determinism_check (s : WfState) (event : Event) (aName : String) :
    ((handleActivityScheduled s event aName).error.isSome = true ↔
      ((RemoveCommandByEventID s event.scheduleEventID).1 = none
        ∨ ∃ c, (RemoveCommandByEventID s event.scheduleEventID).1 = some c
            ∧ (c.attr.commandType ≠ CommandType.ScheduleActivity
              ∨ ∃ caName caInputs, c.attr = .scheduleActivity caName caInputs ∧ aName ≠ caName)))
    ∧ ((handleActivityScheduled s event aName).error = none →
        handleActivityScheduled s event aName =
          ⟨(RemoveCommandByEventID s event.scheduleEventID).2, none, false⟩)
    ∧ (handleActivityScheduled s event aName).state.futures = s.futures
    ∧ (handleActivityScheduled s event aName).state.resolutions = s.resolutions
    ∧ (handleActivityScheduled s event aName).resumed = false := by
  rcases hrm : RemoveCommandByEventID s event.scheduleEventID with ⟨c?, s'⟩
  have hfut : s'.futures = s.futures := by
    have := RemoveCommandByEventID_futures s event.scheduleEventID
    rw [hrm] at this
    exact this
  have hres : s'.resolutions = s.resolutions := by
    have := RemoveCommandByEventID_resolutions s event.scheduleEventID
    rw [hrm] at this
    exact this
  cases c? with
  | none =>
    simp [handleActivityScheduled, hrm, hfut, hres]
  | some c =>
    cases hattr : c.attr with
    | scheduleActivity caName caInputs =>
      by_cases hname : aName = caName
      · subst hname
        simp [handleActivityScheduled, hrm, hattr, hfut, hres, CommandAttr.commandType]
      · simp [handleActivityScheduled, hrm, hattr, hfut, hres, CommandAttr.commandType, hname]
    | _ =>
      simp [handleActivityScheduled, hrm, hattr, hfut, hres, CommandAttr.commandType]

/-- C6 witness: a matching pending `ScheduleActivity` command is removed
and the handler returns nil. -/
theorem handleActivityScheduled_determinism_check_witness :
    handleActivityScheduled fixtureActivityState fixtureActivityEvent "add" =
      ⟨(RemoveCommandByEventID fixtureActivityState fixtureActivityEvent.scheduleEventID).2,
        none, false⟩ :=
  (handleActivityScheduled_determinism_check fixtureActivityState fixtureActivityEvent "add").2.1
    rfl

/-- C9: `handleSideEffectResult` errors exactly when no future is
registered for the event's schedule event id; when the future exists it
is resolved with the recorded result and the workflow resumes; the
command log is untouched in either case. -/
theorem handleSideEffectResult_semantics (s : WfState) (event : Event) (aResult : String) :
    ((handleSideEffectResult s event aResult).error.isSome = true ↔
      FutureByScheduleEventID s event.scheduleEventID = false)
    ∧ (handleSideEffectResult s event aResult).state.commands = s.commands
    ∧ (FutureByScheduleEventID s event.scheduleEventID = true →
        handleSideEffectResult s event aResult =
          ⟨resolveFuture s event.scheduleEventID (some aResult) none, none, true⟩) := by
  by_cases hf : FutureByScheduleEventID s event.scheduleEventID <;>
    simp [handleSideEffectResult, resolveFuture, hf]

/-- C9 witness: with a pending future for id 7 the side-effect result
resolves it and resumes. -/
theorem handleSideEffectResult_semantics_witness :
    handleSideEffectResult fixtureSideEffectState fixtureSideEffectEvent "r" =
      ⟨resolveFuture fixtureSideEffectState fixtureSideEffectEvent.scheduleEventID (some "r") none,
        none, true⟩ :=
  (handleSideEffectResult_semantics fixtureSideEffectState fixtureSideEffectEvent "r").2.2 rfl

/-! Counting lemmas about the command-to-event translation. -/

theorem emitted_cons_countP (inst : WorkflowInstance) (now : Nat) (p : Event → Bool)
    (d : Command) (cs : List Command) :
    (processCommandList inst now (d :: cs)).emitted.countP p
      = (processCommand inst now d).emitted.countP p
        + (processCommandList inst now cs).emitted.countP p := by
  simp only [processCommandList, ProcessResult.emitted, List.map_append, List.countP_append]
  omega

theorem newEvents_cons_countP (inst : WorkflowInstance) (now : Nat) (p : Event → Bool)
    (d : Command) (cs : List Command) :
    (processCommandList inst now (d :: cs)).newEvents.countP p
      = (processCommand inst now d).newEvents.countP p
        + (processCommandList inst now cs).newEvents.countP p := by
  simp only [processCommandList, List.countP_append]

theorem workflowEvents_cons_countP (inst : WorkflowInstance) (now : Nat)
    (p : WorkflowEvent → Bool) (d : Command) (cs : List Command) :
    (processCommandList inst now (d :: cs)).workflowEvents.countP p
      = (processCommand inst now d).workflowEvents.countP p
        + (processCommandList inst now cs).workflowEvents.countP p := by
  simp only [processCommandList, List.countP_append]

theorem mem_newEvents_processCommandList (inst : WorkflowInstance) (now : Nat)
    (c : Command) (cs : List Command) (ev : Event) (hc : c ∈ cs)
    (hev : ev ∈ (processCommand inst now c).newEvents) :
    ev ∈ (processCommandList inst now cs).newEvents := by
  induction cs with
  | nil => cases hc
  | cons d rest ih =>
    rcases List.mem_cons.mp hc with rfl | hmem
    · exact List.mem_append.mpr (Or.inl hev)
    · exact List.mem_append.mpr (Or.inr (ih hmem))

theorem mem_workflowEvents_processCommandList (inst : WorkflowInstance) (now : Nat)
    (c : Command) (cs : List Command) (we : WorkflowEvent) (hc : c ∈ cs)
    (hwe : we ∈ (processCommand inst now c).workflowEvents) :
    we ∈ (processCommandList inst now cs).workflowEvents := by
  induction cs with
  | nil => cases hc
  | cons d rest ih =>
    rcases List.mem_cons.mp hc with rfl | hmem
    · exact List.mem_append.mpr (Or.inl hwe)
    · exact List.mem_append.mpr (Or.inr (ih hmem))

/-- The event types a non-cancel command correlates with never collide
with the event types emitted on behalf of other ids. -/
theorem matchingEventType_beq_false (ct : CommandType)
    (h1 : ct ≠ CommandType.CancelSubWorkflow) (h2 : ct ≠ CommandType.CancelTimer) :
    ((EventType.SubWorkflowCancellationRequested == matchingEventType ct) = false)
    ∧ ((EventType.WorkflowExecutionCanceled == matchingEventType ct) = false)
    ∧ ((EventType.WorkflowExecutionStarted == matchingEventType ct) = false)
    ∧ ((EventType.TimerFired == matchingEventType ct) = false)
    ∧ ((EventType.TimerCanceled == matchingEventType ct) = false)
    ∧ ((EventType.SubWorkflowFailed == matchingEventType ct) = false)
    ∧ ((EventType.SubWorkflowCompleted == matchingEventType ct) = false) := by
  cases ct <;> first
    | exact absurd rfl h1
    | exact absurd rfl h2
    | decide

/-- A command with a different id contributes no event counted for `c`
(for non-cancel `c`). -/
theorem processCommand_other_countP (inst : WorkflowInstance) (now : Nat) (c d : Command)
    (hne : d.id ≠ c.id)
    (h1 : c.attr.commandType ≠ CommandType.CancelSubWorkflow)
    (h2 : c.attr.commandType ≠ CommandType.CancelTimer) :
    (processCommand inst now d).emitted.countP
        (fun ev => ev.scheduleEventID == c.id
          && ev.type == matchingEventType c.attr.commandType) = 0 := by
  have hid : (d.id == c.id) = false := by
    simp only [beq_eq_false_iff_ne, ne_eq]
    exact hne
  obtain ⟨m1, m2, m3, m4, m5, m6, m7⟩ := matchingEventType_beq_false c.attr.commandType h1 h2
  cases hd : d.attr with
  | scheduleActivity name inputs =>
    simp [processCommand, hd, ProcessResult.emitted, createNewEvent, hid]
  | scheduleSubWorkflow inst2 name inputs =>
    simp [processCommand, hd, ProcessResult.emitted, createNewEvent, hid, m3]
  | cancelSubWorkflow inst2 =>
    simp [processCommand, hd, ProcessResult.emitted, createNewEvent,
      NewWorkflowCancellationEvent, m1, m2]
  | sideEffect result =>
    simp [processCommand, hd, ProcessResult.emitted, createNewEvent, hid]
  | scheduleTimer a =>
    simp [processCommand, hd, ProcessResult.emitted, createNewEvent, hid, m4]
  | cancelTimer timerID =>
    simp [processCommand, hd, ProcessResult.emitted, createNewEvent, m5]
  | completeWorkflow result error =>
    by_cases hsw : inst.SubWorkflow <;> by_cases herr : error ≠ "" <;>
      simp [processCommand, hd, ProcessResult.emitted, createNewEvent, hid, hsw, herr, m6, m7]

/-- A non-cancel command contributes exactly one event counted for
itself. -/
theorem processCommand_self_countP (inst : WorkflowInstance) (now : Nat) (c : Command)
    (h1 : c.attr.commandType ≠ CommandType.CancelSubWorkflow)
    (h2 : c.attr.commandType ≠ CommandType.CancelTimer) :
    (processCommand inst now c).emitted.countP
        (fun ev => ev.scheduleEventID == c.id
          && ev.type == matchingEventType c.attr.commandType) = 1 := by
  cases hattr : c.attr with
  | cancelSubWorkflow inst2 =>
    rw [hattr] at h1
    exact absurd rfl h1
  | cancelTimer timerID =>
    rw [hattr] at h2
    exact absurd rfl h2
  | scheduleActivity name inputs =>
    simp [processCommand, hattr, ProcessResult.emitted, createNewEvent,
      CommandAttr.commandType, matchingEventType]
  | scheduleSubWorkflow inst2 name inputs =>
    simp [processCommand, hattr, ProcessResult.emitted, createNewEvent,
      CommandAttr.commandType, matchingEventType]
  | sideEffect result =>
    simp [processCommand, hattr, ProcessResult.emitted, createNewEvent,
      CommandAttr.commandType, matchingEventType]
  | scheduleTimer a =>
    simp [processCommand, hattr, ProcessResult.emitted, createNewEvent,
      CommandAttr.commandType, matchingEventType]
  | completeWorkflow result error =>
    by_cases hsw : inst.SubWorkflow <;> by_cases herr : error ≠ "" <;>
      simp [processCommand, hattr, ProcessResult.emitted, createNewEvent,
        CommandAttr.commandType, matchingEventType, hsw, herr]

theorem processCommandList_countP_zero (inst : WorkflowInstance) (now : Nat) (c : Command)
    (cs : List Command) (hall : ∀ d ∈ cs, d.id ≠ c.id)
    (h1 : c.attr.commandType ≠ CommandType.CancelSubWorkflow)
    (h2 : c.attr.commandType ≠ CommandType.CancelTimer) :
    (processCommandList inst now cs).emitted.countP
        (fun ev => ev.scheduleEventID == c.id
          && ev.type == matchingEventType c.attr.commandType) = 0 := by
  induction cs with
  | nil => rfl
  | cons d rest ih =>
    rw [emitted_cons_countP]
    rw [processCommand_other_countP inst now c d (hall d (List.mem_cons_self d rest)) h1 h2]
    rw [ih (fun d' hd' => hall d' (List.mem_cons_of_mem d hd'))]

theorem processCommandList_countP_unique (inst : WorkflowInstance) (now : Nat) (c : Command)
    (cs : List Command) (hc : c ∈ cs) (hnodup : (cs.map Command.id).Nodup)
    (h1 : c.attr.commandType ≠ CommandType.CancelSubWorkflow)
    (h2 : c.attr.commandType ≠ CommandType.CancelTimer) :
    (processCommandList inst now cs).emitted.countP
        (fun ev => ev.scheduleEventID == c.id
          && ev.type == matchingEventType c.attr.commandType) = 1 := by
  induction cs with
  | nil => cases hc
  | cons d rest ih =>
    rw [List.map_cons, List.nodup_cons] at hnodup
    rw [emitted_cons_countP]
    rcases List.mem_cons.mp hc with rfl | hmem
    · rw [processCommand_self_countP inst now c h1 h2]
      rw [processCommandList_countP_zero inst now c rest ?_ h1 h2]
      intro d' hd' heq
      exact hnodup.1 (heq ▸ List.mem_map_of_mem Command.id hd')
    · have hne : d.id ≠ c.id := by
        intro heq
        exact hnodup.1 (heq ▸ List.mem_map_of_mem Command.id hmem)
      rw [processCommand_other_countP inst now c d hne h1 h2]
      rw [ih hmem hnodup.2]

/-- C2 (amended): every command `processCommands` marks `Committed`,
other than `CancelSubWorkflow` and `CancelTimer` commands, has exactly
one emitted event (local new events plus cross-instance workflow
events) with its schedule event id and matching type, provided command
ids are distinct. -/
theorem processCommands_committed_unique_matching_event (s : WfState) (t : WorkflowTask)
    (c : Command) (hc : c ∈ s.commands) (hnodup : (s.commands.map Command.id).Nodup)
    (h1 : c.attr.commandType ≠ CommandType.CancelSubWorkflow)
    (h2 : c.attr.commandType ≠ CommandType.CancelTimer) :
    (processCommands s t).1.emitted.countP
        (fun ev => ev.scheduleEventID == c.id
          && ev.type == matchingEventType c.attr.commandType) = 1
    ∧ ∀ d ∈ (processCommands s t).2.commands, d.state = CommandState.Committed := by
  constructor
  · exact processCommandList_countP_unique t.workflowInstance s.clockNow c s.commands hc
      hnodup h1 h2
  · intro d hd
    simp only [processCommands, List.mem_map] at hd
    obtain ⟨d', _, rfl⟩ := hd
    rfl

/-- C2 counterexample: a `CancelTimer` command (id 2, canceling timer 1)
is marked `Committed`, yet the turn's emitted events contain no event
with schedule event id 2 of the matching type (`TimerCanceled`): the
emitted `TimerCanceled` is keyed to the canceled timer's id 1, not to
the command's own id. -/
theorem processCommands_cancelTimer_missing_event :
    (∀ d ∈ (processCommands fixtureCancelTimerState fixtureTask).2.commands,
        d.state = CommandState.Committed)
    ∧ ¬ ((processCommands fixtureCancelTimerState fixtureTask).1.emitted.countP
          (fun ev => ev.scheduleEventID == (2 : Int)
            && ev.type == matchingEventType CommandType.CancelTimer) = 1) := by
  constructor
  · decide
  · decide

/-- C2 witness: a single `ScheduleActivity` command with id 1 yields
exactly one matching emitted event. -/
theorem processCommands_committed_unique_matching_event_witness :
    (processCommands fixtureActivityState fixtureTask).1.emitted.countP
        (fun ev => ev.scheduleEventID == (⟨1, .Pending, .scheduleActivity "add" ["1", "2"]⟩ : Command).id
          && ev.type == matchingEventType
            (⟨1, .Pending, .scheduleActivity "add" ["1", "2"]⟩ : Command).attr.commandType) = 1
    ∧ ∀ d ∈ (processCommands fixtureActivityState fixtureTask).2.commands,
        d.state = CommandState.Committed :=
  processCommands_committed_unique_matching_event fixtureActivityState fixtureTask
    ⟨1, .Pending, .scheduleActivity "add" ["1", "2"]⟩ (by decide) (by decide) (by decide)
    (by decide)

/-! Per-command counting lemmas for the `ScheduleTimer` translation. -/

theorem processCommand_timer_self (inst : WorkflowInstance) (now : Nat) (c : Command)
    (at_ : Nat) (hattr : c.attr = CommandAttr.scheduleTimer at_) :
    (processCommand inst now c).newEvents.countP
        (fun ev => ev.type == EventType.TimerScheduled && ev.scheduleEventID == c.id) = 1
    ∧ (processCommand inst now c).workflowEvents.countP
        (fun we => we.historyEvent.type == EventType.TimerFired
          && we.historyEvent.scheduleEventID == c.id) = 1 := by
  constructor <;> simp [processCommand, hattr, createNewEvent]

theorem processCommand_timer_other (inst : WorkflowInstance) (now : Nat) (c d : Command)
    (hne : d.id ≠ c.id) :
    (processCommand inst now d).newEvents.countP
        (fun ev => ev.type == EventType.TimerScheduled && ev.scheduleEventID == c.id) = 0
    ∧ (processCommand inst now d).workflowEvents.countP
        (fun we => we.historyEvent.type == EventType.TimerFired
          && we.historyEvent.scheduleEventID == c.id) = 0 := by
  have hid : (d.id == c.id) = false := by
    simp only [beq_eq_false_iff_ne, ne_eq]
    exact hne
  cases hd : d.attr with
  | completeWorkflow result error =>
    by_cases hsw : inst.SubWorkflow <;> by_cases herr : error ≠ "" <;>
      constructor <;>
        simp [processCommand, hd, createNewEvent, hid, hsw, herr]
  | _ =>
    constructor <;>
      simp [processCommand, hd, createNewEvent, NewWorkflowCancellationEvent, hid]

theorem processCommandList_timer_zero (inst : WorkflowInstance) (now : Nat) (c : Command)
    (cs : List Command) (hall : ∀ d ∈ cs, d.id ≠ c.id) :
    (processCommandList inst now cs).newEvents.countP
        (fun ev => ev.type == EventType.TimerScheduled && ev.scheduleEventID == c.id) = 0
    ∧ (processCommandList inst now cs).workflowEvents.countP
        (fun we => we.historyEvent.type == EventType.TimerFired
          && we.historyEvent.scheduleEventID == c.id) = 0 := by
  induction cs with
  | nil => exact ⟨rfl, rfl⟩
  | cons d rest ih =>
    obtain ⟨ihn, ihw⟩ := ih (fun d' hd' => hall d' (List.mem_cons_of_mem d hd'))
    obtain ⟨hn, hw⟩ := processCommand_timer_other inst now c d (hall d (List.mem_cons_self d rest))
    constructor
    · rw [newEvents_cons_countP, hn, ihn]
    · rw [workflowEvents_cons_countP, hw, ihw]

theorem processCommandList_timer_unique (inst : WorkflowInstance) (now : Nat) (c : Command)
    (at_ : Nat) (cs : List Command) (hc : c ∈ cs)
    (hattr : c.attr = CommandAttr.scheduleTimer at_)
    (hnodup : (cs.map Command.id).Nodup) :
    (processCommandList inst now cs).newEvents.countP
        (fun ev => ev.type == EventType.TimerScheduled && ev.scheduleEventID == c.id) = 1
    ∧ (processCommandList inst now cs).workflowEvents.countP
        (fun we => we.historyEvent.type == EventType.TimerFired
          && we.historyEvent.scheduleEventID == c.id) = 1 := by
  induction cs with
  | nil => cases hc
  | cons d rest ih =>
    rw [List.map_cons, List.nodup_cons] at hnodup
    rcases List.mem_cons.mp hc with rfl | hmem
    · have hall : ∀ d' ∈ rest, d'.id ≠ c.id := by
        intro d' hd' heq
        exact hnodup.1 (heq ▸ List.mem_map_of_mem Command.id hd')
      obtain ⟨hn, hw⟩ := processCommand_timer_self inst now c at_ hattr
      obtain ⟨zn, zw⟩ := processCommandList_timer_zero inst now c rest hall
      constructor
      · rw [newEvents_cons_countP, hn, zn]
      · rw [workflowEvents_cons_countP, hw, zw]
    · have hne : d.id ≠ c.id := by
        intro heq
        exact hnodup.1 (heq ▸ List.mem_map_of_mem Command.id hmem)
      obtain ⟨hn, hw⟩ := processCommand_timer_other inst now c d hne
      obtain ⟨ihn, ihw⟩ := ih hmem hnodup.2
      constructor
      · rw [newEvents_cons_countP, hn, ihn]
      · rw [workflowEvents_cons_countP, hw, ihw]

/-- C4: every `ScheduleTimer` command processed in a turn (with distinct
command ids) puts exactly one `TimerScheduled` event with the command's
schedule event id into the local new events, and exactly one
`TimerFired` event into the cross-instance events, addressed to the
workflow's own instance, with the same schedule event id and
`visibleAt` equal to the timer's fire time. -/
theorem processCommands_scheduleTimer_events (s : WfState) (t : WorkflowTask) (c : Command)
    (at_ : Nat) (hc : c ∈ s.commands) (hattr : c.attr = CommandAttr.scheduleTimer at_)
    (hnodup : (s.commands.map Command.id).Nodup) :
    (processCommands s t).1.newEvents.countP
        (fun ev => ev.type == EventType.TimerScheduled && ev.scheduleEventID == c.id) = 1
    ∧ createNewEvent s.clockNow EventType.TimerScheduled (Attr.timerScheduled at_) c.id none
        ∈ (processCommands s t).1.newEvents
    ∧ (processCommands s t).1.workflowEvents.countP
        (fun we => we.historyEvent.type == EventType.TimerFired
          && we.historyEvent.scheduleEventID == c.id) = 1
    ∧ (⟨t.workflowInstance,
          createNewEvent s.clockNow EventType.TimerFired (Attr.timerFired at_) c.id
            (some at_)⟩ : WorkflowEvent)
        ∈ (processCommands s t).1.workflowEvents := by
  obtain ⟨hn, hw⟩ :=
    processCommandList_timer_unique t.workflowInstance s.clockNow c at_ s.commands hc hattr
      hnodup
  refine ⟨hn, ?_, hw, ?_⟩
  · exact mem_newEvents_processCommandList t.workflowInstance s.clockNow c s.commands _ hc
      (by simp [processCommand, hattr])
  · exact mem_workflowEvents_processCommandList t.workflowInstance s.clockNow c s.commands _ hc
      (by simp [processCommand, hattr])

/-- C4 witness: the single `ScheduleTimer` command of
`fixtureTimerState` produces its `TimerScheduled` event and its
self-addressed `TimerFired` event. -/
theorem processCommands_scheduleTimer_events_witness :
    (processCommands fixtureTimerState fixtureTask).1.newEvents.countP
        (fun ev => ev.type == EventType.TimerScheduled
          && ev.scheduleEventID == (⟨1, .Pending, .scheduleTimer 5⟩ : Command).id) = 1
    ∧ createNewEvent fixtureTimerState.clockNow EventType.TimerScheduled (Attr.timerScheduled 5)
        (⟨1, .Pending, .scheduleTimer 5⟩ : Command).id none
        ∈ (processCommands fixtureTimerState fixtureTask).1.newEvents
    ∧ (processCommands fixtureTimerState fixtureTask).1.workflowEvents.countP
        (fun we => we.historyEvent.type == EventType.TimerFired
          && we.historyEvent.scheduleEventID == (⟨1, .Pending, .scheduleTimer 5⟩ : Command).id) = 1
    ∧ (⟨fixtureTask.workflowInstance,
          createNewEvent fixtureTimerState.clockNow EventType.TimerFired (Attr.timerFired 5)
            (⟨1, .Pending, .scheduleTimer 5⟩ : Command).id (some 5)⟩ : WorkflowEvent)
        ∈ (processCommands fixtureTimerState fixtureTask).1.workflowEvents :=
  processCommands_scheduleTimer_events fixtureTimerState fixtureTask
    ⟨1, .Pending, .scheduleTimer 5⟩ 5 (by decide) rfl (by decide)

/-! Per-command counting lemmas for the `CompleteWorkflow` translation. -/

theorem processCommand_completed_eq (inst : WorkflowInstance) (now : Nat) (d : Command) :
    (processCommand inst now d).completed
      = (d.attr.commandType == CommandType.CompleteWorkflow) := by
  cases hd : d.attr <;> simp [processCommand, hd, CommandAttr.commandType]

theorem processCommandList_completed_of_mem (inst : WorkflowInstance) (now : Nat)
    (c : Command) (cs : List Command) (hc : c ∈ cs)
    (hcw : c.attr.commandType = CommandType.CompleteWorkflow) :
    (processCommandList inst now cs).completed = true := by
  induction cs with
  | nil => cases hc
  | cons d rest ih =>
    show ((processCommand inst now d).completed
      || (processCommandList inst now rest).completed) = true
    rcases List.mem_cons.mp hc with rfl | hmem
    · rw [processCommand_completed_eq, hcw]
      rfl
    · rw [ih hmem, Bool.or_true]

theorem processCommand_finished_countP (inst : WorkflowInstance) (now : Nat) (d : Command) :
    (processCommand inst now d).newEvents.countP
        (fun ev => ev.type == EventType.WorkflowExecutionFinished)
      = if d.attr.commandType = CommandType.CompleteWorkflow then 1 else 0 := by
  cases hd : d.attr <;>
    simp [processCommand, hd, createNewEvent, CommandAttr.commandType]

theorem processCommand_parentMsg_countP (inst : WorkflowInstance) (now : Nat) (d : Command) :
    (processCommand inst now d).workflowEvents.countP
        (fun we => we.historyEvent.type == EventType.SubWorkflowFailed
          || we.historyEvent.type == EventType.SubWorkflowCompleted)
      = if d.attr.commandType = CommandType.CompleteWorkflow ∧ inst.SubWorkflow = true then 1
        else 0 := by
  cases hd : d.attr with
  | completeWorkflow result error =>
    by_cases hsw : inst.SubWorkflow <;> by_cases herr : error ≠ "" <;>
      simp [processCommand, hd, createNewEvent, CommandAttr.commandType, hsw, herr]
  | _ =>
    simp [processCommand, hd, createNewEvent, NewWorkflowCancellationEvent,
      CommandAttr.commandType]

theorem processCommandList_finished_countP (inst : WorkflowInstance) (now : Nat)
    (cs : List Command) :
    (processCommandList inst now cs).newEvents.countP
        (fun ev => ev.type == EventType.WorkflowExecutionFinished)
      = cs.countP (fun d => d.attr.commandType == CommandType.CompleteWorkflow) := by
  induction cs with
  | nil => rfl
  | cons d rest ih =>
    rw [newEvents_cons_countP, processCommand_finished_countP, ih, List.countP_cons]
    by_cases hdc : d.attr.commandType = CommandType.CompleteWorkflow <;> simp [hdc] <;> omega

theorem processCommandList_parentMsg_countP (inst : WorkflowInstance) (now : Nat)
    (cs : List Command) :
    (processCommandList inst now cs).workflowEvents.countP
        (fun we => we.historyEvent.type == EventType.SubWorkflowFailed
          || we.historyEvent.type == EventType.SubWorkflowCompleted)
      = if inst.SubWorkflow = true then
          cs.countP (fun d => d.attr.commandType == CommandType.CompleteWorkflow)
        else 0 := by
  induction cs with
  | nil => simp [processCommandList]
  | cons d rest ih =>
    rw [workflowEvents_cons_countP, processCommand_parentMsg_countP, ih, List.countP_cons]
    by_cases hsw : inst.SubWorkflow = true <;>
      by_cases hdc : d.attr.commandType = CommandType.CompleteWorkflow <;>
        simp [hsw, hdc] <;> omega

/-- C7: a `CompleteWorkflow` command (the turn's only one) sets the
completed flag and appends one `WorkflowExecutionFinished` event with
the result and error to the local new events; exactly when the instance
is a sub-workflow, one additional cross-instance message goes to the
parent instance - `SubWorkflowFailed` when the error string is
non-empty, else `SubWorkflowCompleted` with the result - keyed to the
instance's stored parent schedule event id. -/
theorem processCommands_completeWorkflow_events (s : WfState) (t : WorkflowTask) (c : Command)
    (result error : String) (hc : c ∈ s.commands)
    (hattr : c.attr = CommandAttr.completeWorkflow result error)
    (honly : s.commands.countP
        (fun d => d.attr.commandType == CommandType.CompleteWorkflow) = 1) :
    (processCommands s t).1.completed = true
    ∧ (processCommands s t).1.newEvents.countP
        (fun ev => ev.type == EventType.WorkflowExecutionFinished) = 1
    ∧ createNewEvent s.clockNow EventType.WorkflowExecutionFinished
        (Attr.executionCompleted result error) c.id none
        ∈ (processCommands s t).1.newEvents
    ∧ ((processCommands s t).1.workflowEvents.countP
          (fun we => we.historyEvent.type == EventType.SubWorkflowFailed
            || we.historyEvent.type == EventType.SubWorkflowCompleted)
        = if t.workflowInstance.SubWorkflow = true then 1 else 0)
    ∧ (t.workflowInstance.SubWorkflow = true →
        (⟨NewWorkflowInstance t.workflowInstance.parentInstanceID "",
            if error ≠ "" then
              createNewEvent s.clockNow EventType.SubWorkflowFailed
                (Attr.subWorkflowFailed error) t.workflowInstance.parentEventID none
            else
              createNewEvent s.clockNow EventType.SubWorkflowCompleted
                (Attr.subWorkflowCompleted result) t.workflowInstance.parentEventID none⟩ :
          WorkflowEvent)
          ∈ (processCommands s t).1.workflowEvents) := by
  have hcw : c.attr.commandType = CommandType.CompleteWorkflow := by
    rw [hattr]
    rfl
  refine ⟨processCommandList_completed_of_mem t.workflowInstance s.clockNow c s.commands hc hcw,
    ?_, ?_, ?_, ?_⟩
  · rw [show (processCommands s t).1 = processCommandList t.workflowInstance s.clockNow s.commands
      from rfl]
    rw [processCommandList_finished_countP, honly]
  · exact mem_newEvents_processCommandList t.workflowInstance s.clockNow c s.commands _ hc
      (by simp [processCommand, hattr])
  · rw [show (processCommands s t).1 = processCommandList t.workflowInstance s.clockNow s.commands
      from rfl]
    rw [processCommandList_parentMsg_countP, honly]
  · intro hsw
    refine mem_workflowEvents_processCommandList t.workflowInstance s.clockNow c s.commands _ hc
      ?_
    by_cases herr : error ≠ "" <;> simp [processCommand, hattr, hsw, herr]

/-- C7 witness: the sub-workflow instance's `CompleteWorkflow` command
(result "R", no error) notifies the parent with a
`SubWorkflowCompleted` message keyed to parent schedule event id 3. -/
theorem processCommands_completeWorkflow_events_witness :
    (processCommands fixtureCompleteState fixtureSubTask).1.completed = true
    ∧ (processCommands fixtureCompleteState fixtureSubTask).1.newEvents.countP
        (fun ev => ev.type == EventType.WorkflowExecutionFinished) = 1
    ∧ createNewEvent fixtureCompleteState.clockNow EventType.WorkflowExecutionFinished
        (Attr.executionCompleted "R" "") (⟨4, .Pending, .completeWorkflow "R" ""⟩ : Command).id
        none
        ∈ (processCommands fixtureCompleteState fixtureSubTask).1.newEvents
    ∧ ((processCommands fixtureCompleteState fixtureSubTask).1.workflowEvents.countP
          (fun we => we.historyEvent.type == EventType.SubWorkflowFailed
            || we.historyEvent.type == EventType.SubWorkflowCompleted)
        = if fixtureSubTask.workflowInstance.SubWorkflow = true then 1 else 0)
    ∧ (fixtureSubTask.workflowInstance.SubWorkflow = true →
        (⟨NewWorkflowInstance fixtureSubTask.workflowInstance.parentInstanceID "",
            if ("" : String) ≠ "" then
              createNewEvent fixtureCompleteState.clockNow EventType.SubWorkflowFailed
                (Attr.subWorkflowFailed "") fixtureSubTask.workflowInstance.parentEventID none
            else
              createNewEvent fixtureCompleteState.clockNow EventType.SubWorkflowCompleted
                (Attr.subWorkflowCompleted "R") fixtureSubTask.workflowInstance.parentEventID
                none⟩ : WorkflowEvent)
          ∈ (processCommands fixtureCompleteState fixtureSubTask).1.workflowEvents) :=
  processCommands_completeWorkflow_events fixtureCompleteState fixtureSubTask
    ⟨4, .Pending, .completeWorkflow "R" ""⟩ "R" "" (by decide) rfl (by decide)

/-! Lemmas about sequence-id assignment and the shape of successful
`ExecuteTask` runs. -/

theorem setSequenceIDs_length (l : List Event) (b : Int) :
    (setSequenceIDs b l).1.length = l.length := by
  induction l generalizing b with
  | nil => rfl
  | cons ev rest ih => simp [setSequenceIDs, ih]

theorem setSequenceIDs_snd (l : List Event) (b : Int) :
    (setSequenceIDs b l).2 = b + (l.length : Int) := by
  induction l generalizing b with
  | nil => simp [setSequenceIDs]
  | cons ev rest ih =>
    show (setSequenceIDs (b + 1) rest).2 = b + ((ev :: rest).length : Int)
    rw [ih (b + 1), List.length_cons]
    push_cast
    ring

theorem setSequenceIDs_map_seq (l : List Event) (b : Int) :
    (setSequenceIDs b l).1.map (fun ev => ev.sequenceID)
      = (List.range l.length).map (fun (i : Nat) => b + 1 + (i : Int)) := by
  induction l generalizing b with
  | nil => rfl
  | cons ev rest ih =>
    have hrange : List.range (rest.length + 1)
        = 0 :: (List.range rest.length).map Nat.succ :=
      List.range_succ_eq_map rest.length
    show (b + 1) :: (setSequenceIDs (b + 1) rest).1.map (fun ev => ev.sequenceID)
      = (List.range (ev :: rest).length).map (fun (i : Nat) => b + 1 + (i : Int))
    rw [List.length_cons, hrange, List.map_cons, List.map_map, ih (b + 1)]
    congr 1
    · show b + 1 = b + 1 + ((0 : Nat) : Int)
      simp
    · apply List.map_congr_left
      intro i _
      show b + 1 + 1 + (i : Int) = b + 1 + ((Nat.succ i : Nat) : Int)
      push_cast
      ring

theorem setSequenceIDs_map_core (l : List Event) (b : Int) :
    (setSequenceIDs b l).1.map eventCore = l.map eventCore := by
  induction l generalizing b with
  | nil => rfl
  | cons ev rest ih => simp [setSequenceIDs, eventCore, ih]

theorem setSequenceIDs_pos (l : List Event) (b : Int) (hb : 0 ≤ b) :
    ∀ ev ∈ (setSequenceIDs b l).1, 0 < ev.sequenceID := by
  induction l generalizing b with
  | nil => intro ev hev; cases hev
  | cons e rest ih =>
    intro ev hev
    rcases List.mem_cons.mp hev with rfl | hm
    · show (0 : Int) < b + 1
      omega
    · exact ih (b + 1) (by omega) ev hm

theorem finishTask_executed_seq (b : Int) (s : WfState) (evs : List Event) (t : WorkflowTask) :
    ((finishTask b s evs t).1.executed.map (fun ev => ev.sequenceID)
      = (List.range (finishTask b s evs t).1.executed.length).map
          (fun (i : Nat) => b + 1 + (i : Int)))
    ∧ (finishTask b s evs t).2.2 = b + ((finishTask b s evs t).1.executed.length : Int) := by
  constructor
  · show (setSequenceIDs b (evs ++ (processCommands s t).1.newEvents)).1.map
        (fun ev => ev.sequenceID)
      = (List.range (setSequenceIDs b (evs ++ (processCommands s t).1.newEvents)).1.length).map
          (fun (i : Nat) => b + 1 + (i : Int))
    rw [setSequenceIDs_length, setSequenceIDs_map_seq]
  · show (setSequenceIDs b (evs ++ (processCommands s t).1.newEvents)).2
      = b + ((setSequenceIDs b (evs ++ (processCommands s t).1.newEvents)).1.length : Int)
    rw [setSequenceIDs_length, setSequenceIDs_snd]

theorem runNewEventsAndFinish_shape (execEvent : WfState → Event → Except String WfState)
    (b : Int) (s : WfState) (skip : Bool) (t : WorkflowTask) :
    ∃ s3 evs, runNewEventsAndFinish execEvent b s skip t = finishTask b s3 evs t := by
  cases skip with
  | true =>
    exact ⟨s, [createNewEvent s.clockNow .WorkflowTaskStarted .workflowTaskStarted 0 none], rfl⟩
  | false =>
    rcases hex : executeNewEvents execEvent s
        (createNewEvent s.clockNow .WorkflowTaskStarted .workflowTaskStarted 0 none
          :: t.newEvents) with ⟨pre, s', err⟩
    cases err with
    | some msg =>
      refine ⟨workflowCompleted s' "" msg, pre, ?_⟩
      show (match executeNewEvents execEvent s _ with
        | (pre, s', some err) => finishTask b (workflowCompleted s' "" err) pre t
        | (pre, s', none) => finishTask b s' pre t) = _
      rw [hex]
    | none =>
      refine ⟨s', pre, ?_⟩
      show (match executeNewEvents execEvent s _ with
        | (pre, s', some err) => finishTask b (workflowCompleted s' "" err) pre t
        | (pre, s', none) => finishTask b s' pre t) = _
      rw [hex]

theorem replayAndRun_ok_shape (execEvent : WfState → Event → Except String WfState)
    (b : Int) (s0 : WfState) (hist : List Event) (t : WorkflowTask)
    (out : ExecutionResult × WfState × Int)
    (h : replayAndRun execEvent b s0 hist t = .ok out) :
    ∃ s2 skip, out = runNewEventsAndFinish execEvent t.lastSequenceID s2 skip t := by
  unfold replayAndRun at h
  split at h
  next s1 seq1 err _heq =>
    split at h
    next hne => simp at h
    next hne =>
      push_neg at hne
      refine ⟨workflowCompleted s1 "" err, true, ?_⟩
      rw [hne]
      exact (Except.ok.inj h).symm
  next s1 seq1 _heq =>
    split at h
    next hne => simp at h
    next hne =>
      push_neg at hne
      refine ⟨s1, false, ?_⟩
      rw [hne]
      exact (Except.ok.inj h).symm

theorem ExecuteTask_ok_shape (execEvent : WfState → Event → Except String WfState)
    (provider : Except String (List Event)) (lastSeq : Int) (s : WfState) (t : WorkflowTask)
    (out : ExecutionResult × WfState × Int)
    (h : ExecuteTask execEvent provider lastSeq s t = .ok out) :
    ∃ s3 evs, out = finishTask t.lastSequenceID s3 evs t := by
  unfold ExecuteTask at h
  by_cases hlt : lastSeq < t.lastSequenceID
  · rw [if_pos hlt] at h
    cases provider with
    | error err => cases h
    | ok hist =>
      obtain ⟨s2, skip, hout⟩ := replayAndRun_ok_shape execEvent lastSeq (ClearCommands s)
        hist t out h
      obtain ⟨s3, evs, hfin⟩ := runNewEventsAndFinish_shape execEvent t.lastSequenceID s2 skip t
      exact ⟨s3, evs, hout.trans hfin⟩
  · rw [if_neg hlt] at h
    by_cases hgt : t.lastSequenceID < lastSeq
    · rw [if_pos hgt] at h
      cases h
    · rw [if_neg hgt] at h
      have heql : lastSeq = t.lastSequenceID := by omega
      obtain ⟨s3, evs, hfin⟩ :=
        runNewEventsAndFinish_shape execEvent lastSeq (ClearCommands s) false t
      refine ⟨s3, evs, ?_⟩
      rw [← heql]
      exact (Except.ok.inj h).symm.trans hfin

/-- C3: for every successful `ExecuteTask` call the sequence ids of the
`Executed` events form the contiguous strictly-increasing run of
consecutive integers starting right after the pre-assignment
`lastSequenceID` (which on every success path equals the task's
`lastSequenceID`), and the executor's `lastSequenceID` afterwards equals
the last assigned id. -/
theorem ExecuteTask_sequence_ids (execEvent : WfState → Event → Except String WfState)
    (provider : Except String (List Event)) (lastSeq : Int) (s : WfState) (t : WorkflowTask)
    (res : ExecutionResult) (s' : WfState) (seq' : Int)
    (h : ExecuteTask execEvent provider lastSeq s t = .ok (res, s', seq')) :
    res.executed.map (fun ev => ev.sequenceID)
      = (List.range res.executed.length).map
          (fun (i : Nat) => t.lastSequenceID + 1 + (i : Int))
    ∧ seq' = t.lastSequenceID + (res.executed.length : Int) := by
  obtain ⟨s3, evs, hout⟩ := ExecuteTask_ok_shape execEvent provider lastSeq s t (res, s', seq') h
  obtain ⟨h1, h2⟩ := finishTask_executed_seq t.lastSequenceID s3 evs t
  have hres : res = (finishTask t.lastSequenceID s3 evs t).1 := congrArg Prod.fst hout
  have hseq : seq' = (finishTask t.lastSequenceID s3 evs t).2.2 :=
    congrArg (fun p => p.2.2) hout
  rw [hres, hseq]
  exact ⟨h1, h2⟩

/-- C3 witness: a trivial turn executes one `WorkflowTaskStarted` event
which receives sequence id 1 = task.lastSequenceID + 1, and the final
counter is 1. -/
theorem ExecuteTask_sequence_ids_witness :
    ∃ res s' seq', ExecuteTask okExecEvent (Except.ok []) 0 emptyWfState fixtureTask
        = Except.ok (res, s', seq')
      ∧ res.executed.map (fun ev => ev.sequenceID)
          = (List.range res.executed.length).map
              (fun (i : Nat) => fixtureTask.lastSequenceID + 1 + (i : Int))
      ∧ seq' = fixtureTask.lastSequenceID + (res.executed.length : Int) := by
  refine ⟨_, _, _, rfl, ?_⟩
  exact ExecuteTask_sequence_ids okExecEvent (Except.ok []) 0 emptyWfState fixtureTask _ _ _ rfl

/-! Lemmas for the frame claim: activity and cross-instance event copies
keep sequence id 0. -/

theorem processCommand_activityEvents_seq_zero (inst : WorkflowInstance) (now : Nat)
    (d : Command) : ∀ ev ∈ (processCommand inst now d).activityEvents, ev.sequenceID = 0 := by
  cases hd : d.attr <;> simp [processCommand, hd, createNewEvent]

theorem processCommand_workflowEvents_seq_zero (inst : WorkflowInstance) (now : Nat)
    (d : Command) :
    ∀ we ∈ (processCommand inst now d).workflowEvents, we.historyEvent.sequenceID = 0 := by
  cases hd : d.attr with
  | completeWorkflow result error =>
    by_cases hsw : inst.SubWorkflow <;> by_cases herr : error ≠ "" <;>
      simp [processCommand, hd, createNewEvent, hsw, herr]
  | _ =>
    simp [processCommand, hd, createNewEvent, NewWorkflowCancellationEvent]

theorem processCommandList_activityEvents_seq_zero (inst : WorkflowInstance) (now : Nat)
    (cs : List Command) :
    ∀ ev ∈ (processCommandList inst now cs).activityEvents, ev.sequenceID = 0 := by
  induction cs with
  | nil => intro ev hev; cases hev
  | cons d rest ih =>
    intro ev hev
    rcases List.mem_append.mp hev with hm | hm
    · exact processCommand_activityEvents_seq_zero inst now d ev hm
    · exact ih ev hm

theorem processCommandList_workflowEvents_seq_zero (inst : WorkflowInstance) (now : Nat)
    (cs : List Command) :
    ∀ we ∈ (processCommandList inst now cs).workflowEvents, we.historyEvent.sequenceID = 0 := by
  induction cs with
  | nil => intro we hwe; cases hwe
  | cons d rest ih =>
    intro we hwe
    rcases List.mem_append.mp hwe with hm | hm
    · exact processCommand_workflowEvents_seq_zero inst now d we hm
    · exact ih we hm

/-- C10: sequence ids are assigned only to the `Executed` list.  The
`ActivityEvents` and the events inside `WorkflowEvents` of a successful
`ExecuteTask` are value copies made before assignment and keep their
unassigned sequence id 0, while (for a backend sequence id that is not
negative) every event in `Executed` carries a positive assigned id. -/
theorem ExecuteTask_copies_keep_zero_sequence_id
    (execEvent : WfState → Event → Except String WfState)
    (provider : Except String (List Event)) (lastSeq : Int) (s : WfState) (t : WorkflowTask)
    (res : ExecutionResult) (s' : WfState) (seq' : Int)
    (h : ExecuteTask execEvent provider lastSeq s t = .ok (res, s', seq')) :
    (∀ ev ∈ res.activityEvents, ev.sequenceID = 0)
    ∧ (∀ we ∈ res.workflowEvents, we.historyEvent.sequenceID = 0)
    ∧ (0 ≤ t.lastSequenceID → ∀ ev ∈ res.executed, 0 < ev.sequenceID) := by
  obtain ⟨s3, evs, hout⟩ := ExecuteTask_ok_shape execEvent provider lastSeq s t (res, s', seq') h
  have hres : res = (finishTask t.lastSequenceID s3 evs t).1 := congrArg Prod.fst hout
  refine ⟨?_, ?_, ?_⟩
  · rw [hres]
    show ∀ ev ∈ (processCommands s3 t).1.activityEvents, ev.sequenceID = 0
    exact processCommandList_activityEvents_seq_zero t.workflowInstance s3.clockNow s3.commands
  · rw [hres]
    show ∀ we ∈ (processCommands s3 t).1.workflowEvents, we.historyEvent.sequenceID = 0
    exact processCommandList_workflowEvents_seq_zero t.workflowInstance s3.clockNow s3.commands
  · intro hb
    rw [hres]
    show ∀ ev ∈ (setSequenceIDs t.lastSequenceID
        (evs ++ (processCommands s3 t).1.newEvents)).1, 0 < ev.sequenceID
    exact setSequenceIDs_pos _ _ hb

/-- C10 witness: a turn in which user code schedules an activity - the
returned `ActivityEvents` copy keeps sequence id 0 while the `Executed`
copies get positive ids. -/
theorem ExecuteTask_copies_keep_zero_sequence_id_witness :
    ∃ res s' seq', ExecuteTask addActivityExecEvent (Except.ok []) 0 emptyWfState fixtureTask
        = Except.ok (res, s', seq')
      ∧ ((∀ ev ∈ res.activityEvents, ev.sequenceID = 0)
        ∧ (∀ we ∈ res.workflowEvents, we.historyEvent.sequenceID = 0)
        ∧ (0 ≤ fixtureTask.lastSequenceID → ∀ ev ∈ res.executed, 0 < ev.sequenceID)) := by
  refine ⟨_, _, _, rfl, ?_⟩
  exact ExecuteTask_copies_keep_zero_sequence_id addActivityExecEvent (Except.ok []) 0
    emptyWfState fixtureTask _ _ _ rfl

/-! Lemmas for the error-path claims: prefixes of dispatched events and
the flushed `CompleteWorkflow` command. -/

theorem dispatchLoop_prefix (execEvent : WfState → Event → Except String WfState)
    (evs : List Event) (s : WfState) :
    ∃ u, (dispatchLoop execEvent s evs).1 ++ u = evs := by
  induction evs generalizing s with
  | nil => exact ⟨[], rfl⟩
  | cons ev rest ih =>
    cases hex : execEvent s ev with
    | error err => exact ⟨ev :: rest, by simp [dispatchLoop, hex]⟩
    | ok s2 =>
      obtain ⟨u, hu⟩ := ih s2
      exact ⟨u, by simp [dispatchLoop, hex, hu]⟩

theorem executeNewEvents_prefix (execEvent : WfState → Event → Except String WfState)
    (s : WfState) (evs pre : List Event) (s' : WfState) (err : Option String)
    (h : executeNewEvents execEvent s evs = (pre, s', err)) : ∃ u, pre ++ u = evs := by
  unfold executeNewEvents at h
  split at h
  next pre2 s2 msg heq =>
    have hp : pre = pre2 := (congrArg Prod.fst h).symm
    obtain ⟨u, hu⟩ := dispatchLoop_prefix execEvent evs (SetReplaying s false)
    rw [heq] at hu
    exact ⟨u, by rw [hp]; exact hu⟩
  next a s2 heq =>
    split at h
    · have hp : pre = evs := (congrArg Prod.fst h).symm
      exact ⟨[], by rw [hp, List.append_nil]⟩
    · have hp : pre = evs := (congrArg Prod.fst h).symm
      exact ⟨[], by rw [hp, List.append_nil]⟩

theorem setSequenceIDs_exists_core (l : List Event) (b : Int) (ev : Event) (hev : ev ∈ l) :
    ∃ ev2 ∈ (setSequenceIDs b l).1, eventCore ev2 = eventCore ev := by
  induction l generalizing b with
  | nil => cases hev
  | cons e rest ih =>
    rcases List.mem_cons.mp hev with rfl | hm
    · exact ⟨{ev with sequenceID := b + 1}, List.mem_cons_self _ _, rfl⟩
    · obtain ⟨ev2, hmem, hcore⟩ := ih (b + 1) hm
      exact ⟨ev2, List.mem_cons_of_mem _ hmem, hcore⟩

/-- After `workflowCompleted` appended its `CompleteWorkflow` command,
flushing the commands reports completion and emits the
`WorkflowExecutionFinished` event carrying the error into the executed
events. -/
theorem finishTask_after_workflowCompleted (b : Int) (s3 : WfState) (msg : String)
    (evs : List Event) (t : WorkflowTask) :
    (finishTask b (workflowCompleted s3 "" msg) evs t).1.completed = true
    ∧ ∃ ev ∈ (finishTask b (workflowCompleted s3 "" msg) evs t).1.executed,
        ev.type = EventType.WorkflowExecutionFinished
        ∧ ev.attributes = Attr.executionCompleted "" msg := by
  have hcmd : NewCompleteWorkflowCommand s3.nextScheduleEventID "" msg
      ∈ (workflowCompleted s3 "" msg).commands := by
    show _ ∈ s3.commands ++ [NewCompleteWorkflowCommand s3.nextScheduleEventID "" msg]
    exact List.mem_append_right _ (List.mem_singleton.mpr rfl)
  constructor
  · exact processCommandList_completed_of_mem t.workflowInstance
      (workflowCompleted s3 "" msg).clockNow _ _ hcmd rfl
  · have hevmem : createNewEvent (workflowCompleted s3 "" msg).clockNow
        EventType.WorkflowExecutionFinished (Attr.executionCompleted "" msg)
        (NewCompleteWorkflowCommand s3.nextScheduleEventID "" msg).id none
        ∈ (processCommands (workflowCompleted s3 "" msg) t).1.newEvents :=
      mem_newEvents_processCommandList t.workflowInstance
        (workflowCompleted s3 "" msg).clockNow _ _ _ hcmd
        (by simp [processCommand, NewCompleteWorkflowCommand])
    have hmem2 : createNewEvent (workflowCompleted s3 "" msg).clockNow
        EventType.WorkflowExecutionFinished (Attr.executionCompleted "" msg)
        (NewCompleteWorkflowCommand s3.nextScheduleEventID "" msg).id none
        ∈ evs ++ (processCommands (workflowCompleted s3 "" msg) t).1.newEvents :=
      List.mem_append_right _ hevmem
    obtain ⟨ev2, hm2, hcore⟩ := setSequenceIDs_exists_core _ b _ hmem2
    refine ⟨ev2, hm2, ?_, ?_⟩
    · exact congrArg Prod.fst hcore
    · exact congrArg (fun p => p.2.2.2.2) hcore

/-- C8: in a turn without replay, `ExecuteTask` dispatches a fresh
`WorkflowTaskStarted` event followed by the task's new events; when
dispatch fails, the returned `Executed` list consists of exactly the
successfully dispatched prefix plus the events produced from commands
(sequence ids are then assigned, see C3), the workflow is recorded
completed with the dispatch error, the commands are still flushed
through `processCommands`, and `ExecuteTask` returns a result, not an
error (the history provider is never consulted). -/
theorem ExecuteTask_dispatch_error_flushes
    (execEvent : WfState → Event → Except String WfState)
    (provider : Except String (List Event)) (lastSeq : Int) (s : WfState) (t : WorkflowTask)
    (pre : List Event) (s3 : WfState) (errmsg : String)
    (heq : t.lastSequenceID = lastSeq)
    (hexec : executeNewEvents execEvent (ClearCommands s)
        (createNewEvent (ClearCommands s).clockNow .WorkflowTaskStarted .workflowTaskStarted 0
            none
          :: t.newEvents) = (pre, s3, some errmsg)) :
    ∃ res s' seq', ExecuteTask execEvent provider lastSeq s t = .ok (res, s', seq')
      ∧ (∃ u, pre ++ u
          = createNewEvent (ClearCommands s).clockNow .WorkflowTaskStarted .workflowTaskStarted
              0 none
            :: t.newEvents)
      ∧ res.completed = true
      ∧ (∃ ev ∈ res.executed, ev.type = EventType.WorkflowExecutionFinished
          ∧ ev.attributes = Attr.executionCompleted "" errmsg)
      ∧ res.executed.map eventCore
          = (pre ++ (processCommands (workflowCompleted s3 "" errmsg) t).1.newEvents).map
              eventCore := by
  have hok : ExecuteTask execEvent provider lastSeq s t
      = .ok (finishTask lastSeq (workflowCompleted s3 "" errmsg) pre t) := by
    unfold ExecuteTask
    rw [if_neg (by omega), if_neg (by omega)]
    refine congrArg Except.ok ?_
    unfold runNewEventsAndFinish
    rw [hexec]
    rfl
  obtain ⟨hcomp, hfin⟩ := finishTask_after_workflowCompleted lastSeq s3 errmsg pre t
  refine ⟨(finishTask lastSeq (workflowCompleted s3 "" errmsg) pre t).1,
    (finishTask lastSeq (workflowCompleted s3 "" errmsg) pre t).2.1,
    (finishTask lastSeq (workflowCompleted s3 "" errmsg) pre t).2.2,
    hok, executeNewEvents_prefix execEvent (ClearCommands s) _ pre s3 (some errmsg) hexec,
    hcomp, hfin, ?_⟩
  show (setSequenceIDs lastSeq
      (pre ++ (processCommands (workflowCompleted s3 "" errmsg) t).1.newEvents)).1.map eventCore
    = _
  exact setSequenceIDs_map_core _ lastSeq

/-- C8 witness: with a dispatcher that fails on the very first event,
the executed prefix is empty and the result still carries the
`WorkflowExecutionFinished` event with the dispatch error. -/
theorem ExecuteTask_dispatch_error_flushes_witness :
    ∃ res s' seq', ExecuteTask failExecEvent (Except.ok []) 0 emptyWfState fixtureTask
        = .ok (res, s', seq')
      ∧ (∃ u, ([] : List Event) ++ u
          = createNewEvent (ClearCommands emptyWfState).clockNow .WorkflowTaskStarted
              .workflowTaskStarted 0 none
            :: fixtureTask.newEvents)
      ∧ res.completed = true
      ∧ (∃ ev ∈ res.executed, ev.type = EventType.WorkflowExecutionFinished
          ∧ ev.attributes = Attr.executionCompleted "" "dispatch failure")
      ∧ res.executed.map eventCore
          = (([] : List Event)
              ++ (processCommands
                  (workflowCompleted (SetReplaying (ClearCommands emptyWfState) false) ""
                    "dispatch failure")
                  fixtureTask).1.newEvents).map eventCore :=
  ExecuteTask_dispatch_error_flushes failExecEvent (Except.ok []) 0 emptyWfState fixtureTask
    [] (SetReplaying (ClearCommands emptyWfState) false) "dispatch failure" rfl rfl

/-- C1 counterexample: replaying the fetched history raises an error on
its very first event, so the executor's `lastSequenceID` (0) never
reaches the task's (1) and `ExecuteTask` returns the sequence-mismatch
error instead of an `ExecutionResult`. -/
theorem ExecuteTask_replay_error_counterexample :
    (replayHistory failExecEvent (ClearCommands emptyWfState) 0 [fixtureHistoryEvent]).2.2
        = some "dispatch failure"
    ∧ ExecuteTask failExecEvent (Except.ok [fixtureHistoryEvent]) 0 emptyWfState
        fixtureReplayTask
      = Except.error
          "even after fetching history and replaying history executor state does not match task" :=
  ⟨rfl, rfl⟩

/-- C1 (amended): if replaying the fetched history raises an error and
the partially-replayed `lastSequenceID` equals the task's (otherwise
the sequence-mismatch check makes `ExecuteTask` return an error), the
executor marks the workflow completed with that error, skips the new
events (the `Executed` list is the fresh `WorkflowTaskStarted` event
followed only by command events), still flushes the commands through
`processCommands` so a `WorkflowExecutionFinished` event carrying the
error goes out in `Executed`, and `ExecuteTask` returns an
`ExecutionResult`. -/
theorem ExecuteTask_replay_error_flushes
    (execEvent : WfState → Event → Except String WfState) (hist : List Event) (lastSeq : Int)
    (s : WfState) (t : WorkflowTask) (errmsg : String) (s1 : WfState)
    (hlt : lastSeq < t.lastSequenceID)
    (hrep : replayHistory execEvent (ClearCommands s) lastSeq hist
        = (s1, t.lastSequenceID, some errmsg)) :
    ∃ res s' seq', ExecuteTask execEvent (Except.ok hist) lastSeq s t = .ok (res, s', seq')
      ∧ res.completed = true
      ∧ (∃ ev ∈ res.executed, ev.type = EventType.WorkflowExecutionFinished
          ∧ ev.attributes = Attr.executionCompleted "" errmsg)
      ∧ res.executed.map eventCore
          = (createNewEvent (workflowCompleted s1 "" errmsg).clockNow
                EventType.WorkflowTaskStarted Attr.workflowTaskStarted 0 none
              :: (processCommands (workflowCompleted s1 "" errmsg) t).1.newEvents).map
              eventCore := by
  have hok : ExecuteTask execEvent (Except.ok hist) lastSeq s t
      = .ok (finishTask t.lastSequenceID (workflowCompleted s1 "" errmsg)
          [createNewEvent (workflowCompleted s1 "" errmsg).clockNow .WorkflowTaskStarted
            .workflowTaskStarted 0 none] t) := by
    unfold ExecuteTask
    rw [if_pos hlt]
    show replayAndRun execEvent lastSeq (ClearCommands s) hist t = _
    unfold replayAndRun
    rw [hrep]
    show (if t.lastSequenceID ≠ t.lastSequenceID then
        (Except.error
          "even after fetching history and replaying history executor state does not match task" :
          Except String (ExecutionResult × WfState × Int))
      else
        Except.ok (runNewEventsAndFinish execEvent t.lastSequenceID
          (workflowCompleted s1 "" errmsg) true t)) = _
    rw [if_neg (fun hne => hne rfl)]
    rfl
  obtain ⟨hcomp, hfin⟩ := finishTask_after_workflowCompleted t.lastSequenceID s1 errmsg
    [createNewEvent (workflowCompleted s1 "" errmsg).clockNow .WorkflowTaskStarted
      .workflowTaskStarted 0 none] t
  refine ⟨_, _, _, hok, hcomp, hfin, ?_⟩
  show (setSequenceIDs t.lastSequenceID
      (createNewEvent (workflowCompleted s1 "" errmsg).clockNow .WorkflowTaskStarted
          .workflowTaskStarted 0 none
        :: (processCommands (workflowCompleted s1 "" errmsg) t).1.newEvents)).1.map eventCore
    = _
  exact setSequenceIDs_map_core _ t.lastSequenceID

/-- C1 witness: replay succeeds on the first history event (sequence id
1, matching the task) and fails on the second, so the executor flushes
a `CompleteWorkflow` command and returns an `ExecutionResult` whose
`Executed` events are `WorkflowTaskStarted` followed by the
`WorkflowExecutionFinished` carrying the replay error. -/
theorem ExecuteTask_replay_error_flushes_witness :
    ∃ res s' seq', ExecuteTask failOnTimerFiredExecEvent
          (Except.ok [fixtureHistoryEvent, fixtureFailEvent]) 0 emptyWfState fixtureReplayTask
        = .ok (res, s', seq')
      ∧ res.completed = true
      ∧ (∃ ev ∈ res.executed, ev.type = EventType.WorkflowExecutionFinished
          ∧ ev.attributes = Attr.executionCompleted "" "replay failure")
      ∧ res.executed.map eventCore
          = (createNewEvent
                (workflowCompleted (SetReplaying (ClearCommands emptyWfState) true) ""
                  "replay failure").clockNow
                EventType.WorkflowTaskStarted Attr.workflowTaskStarted 0 none
              :: (processCommands
                  (workflowCompleted (SetReplaying (ClearCommands emptyWfState) true) ""
                    "replay failure")
                  fixtureReplayTask).1.newEvents).map eventCore :=
  ExecuteTask_replay_error_flushes failOnTimerFiredExecEvent
    [fixtureHistoryEvent, fixtureFailEvent] 0 emptyWfState fixtureReplayTask "replay failure"
    (SetReplaying (ClearCommands emptyWfState) true) (by decide) rfl

end Workflow
